/-
Verification of the netCDF-4/HDF5 file-layer metadata model
(`libhdf5/hdf5file.c`).

The development shallowly embeds the pure decision logic of the C source:
external HDF5 engine calls (`H5Tequal`, `H5Aread`, dataspace queries, ...)
become oracle fields of explicit input records, machine integers become
`Int`/`Nat`, and each C function that matters to a claim is transcribed as
an executable Lean function over those inputs plus an explicit state.
-/
import Mathlib

/-! ### Error codes

Numeric values follow the library's public header conventions: `NC_NOERR`
is zero and every error code is a distinct negative integer.  The proofs
below depend only on distinctness and sign. -/

def NC_NOERR : Int := 0
def NC_EINVAL : Int := -36
def NC_ENOTINDEFINE : Int := -38
def NC_EINDEFINE : Int := -39
def NC_ENOMEM : Int := -61
def NC_EHDFERR : Int := -101
def NC_ECANTWRITE : Int := -103
def NC_EATTMETA : Int := -107
def NC_EBADGRPID : Int := -116
def NC_EBADTYPID : Int := -117

/-- HDF5 iteration callback: continue iterating. -/
def H5_ITER_CONT : Int := 0

/-- HDF5 iteration callback: abort iteration with an error. -/
def H5_ITER_ERROR : Int := -1

/-- Largest value of a 32-bit unsigned integer (`NC_MAX_UINT`). -/
def NC_MAX_UINT : Nat := 4294967295

/-! ### Reserved-attribute registry (`NC_reserved`, `NC_findreserved`) -/

/-- Flag set of a reserved attribute (`READONLYFLAG`, `DIMSCALEFLAG`,
`NAMEONLYFLAG` in the C source), modelled as three booleans. -/
structure RAFlags where
  readonlyFlag : Bool
  dimscaleFlag : Bool
  nameonlyFlag : Bool
deriving DecidableEq, Repr

/-- One entry of the reserved-attribute table (`NC_reservedatt`). -/
structure NC_reservedatt where
  name : String
  flags : RAFlags
deriving DecidableEq, Repr

/-- `READONLYFLAG` alone. -/
def roOnly : RAFlags := ⟨true, false, false⟩

/-- `READONLYFLAG|DIMSCALEFLAG`. -/
def roDim : RAFlags := ⟨true, true, false⟩

/-- `READONLYFLAG|NAMEONLYFLAG`. -/
def roNameOnly : RAFlags := ⟨true, false, true⟩

/-- The static sorted table of the 11 reserved attribute names, with the
flag sets given in `hdf5file.c` (attribute-name strings as recorded in the
table's comments). -/
def NC_reserved : List NC_reservedatt :=
  [⟨"CLASS", roDim⟩,
   ⟨"DIMENSION_LIST", roDim⟩,
   ⟨"NAME", roDim⟩,
   ⟨"REFERENCE_LIST", roDim⟩,
   ⟨"_Format", roOnly⟩,
   ⟨"_IsNetcdf4", roNameOnly⟩,
   ⟨"_NCProperties", roNameOnly⟩,
   ⟨"_Netcdf4Coordinates", roDim⟩,
   ⟨"_Netcdf4Dimid", roDim⟩,
   ⟨"_SuperblockVersion", roNameOnly⟩,
   ⟨"_nc3_strict", roOnly⟩]

/-- Number of entries in the reserved table (`NRESERVED`). -/
def NRESERVED : Nat := 11

/-- Three-way comparison of character lists by code point: the semantics
of C `strcmp` on the (ASCII) attribute names involved. -/
def strcmpL : List Char → List Char → Ordering
  | [], [] => .eq
  | [], _ :: _ => .lt
  | _ :: _, [] => .gt
  | a :: as, b :: bs =>
    if a < b then .lt
    else if b < a then .gt
    else strcmpL as bs

/-- `strcmp` on strings, via their character lists. -/
def strcmp (a b : String) : Ordering := strcmpL a.data b.data

theorem strcmpL_eq : ∀ a b : List Char, strcmpL a b = .eq → a = b := by
  intro a
  induction a with
  | nil =>
    intro b h
    cases b with
    | nil => rfl
    | cons x xs => simp [strcmpL] at h
  | cons x xs ih =>
    intro b h
    cases b with
    | nil => simp [strcmpL] at h
    | cons y ys =>
      unfold strcmpL at h
      by_cases h1 : x < y
      · simp [h1] at h
      · by_cases h2 : y < x
        · simp [h1, h2] at h
        · simp [h1, h2] at h
          rw [le_antisymm (not_lt.mp h2) (not_lt.mp h1), ih ys h]

/-- If `strcmp` reports equality, the strings are equal. -/
theorem strcmp_eq (a b : String) (h : strcmp a b = .eq) : a = b := by
  cases a; cases b
  exact congrArg String.mk (strcmpL_eq _ _ h)

/-- The loop of `NC_findreserved`: binary search over `NC_reserved` with
`strcmp` semantics (`cmp = strcmp(p->name, name)`; `cmp == 0` returns the
entry, `cmp < 0` moves `L` up, `cmp > 0` moves `R` down).  The C loop
terminates because the range shrinks; here a fuel argument larger than any
possible iteration count makes the recursion structural. -/
def findreservedLoop (name : String) : Nat → Int → Int → Option NC_reservedatt
  | 0, _, _ => none
  | Nat.succ fuel, L, R =>
    if L > R then none
    else
      let m : Int := (L + R) / 2
      match NC_reserved.get? m.toNat with
      | none => none
      | some p =>
        match strcmp p.name name with
        | .eq => some p
        | .lt => findreservedLoop name fuel (m + 1) R
        | .gt => findreservedLoop name fuel L (m - 1)

/-- `NC_findreserved`: binary search for `name` in the reserved table. -/
def NC_findreserved (name : String) : Option NC_reservedatt :=
  findreservedLoop name (NRESERVED + 1) 0 (NRESERVED - 1 : Nat)

/-- Soundness of the binary-search loop: any entry it returns is an entry
of the table carrying exactly the searched-for name. -/
theorem findreservedLoop_some (name : String) :
    ∀ fuel : Nat, ∀ L R : Int, ∀ p : NC_reservedatt,
      findreservedLoop name fuel L R = some p →
      p ∈ NC_reserved ∧ p.name = name := by
  intro fuel
  induction fuel with
  | zero => intro L R p h; simp [findreservedLoop] at h
  | succ n ih =>
    intro L R p h
    unfold findreservedLoop at h
    by_cases hLR : L > R
    · simp [hLR] at h
    · simp only [hLR, if_false] at h
      rcases hget : NC_reserved.get? ((L + R) / 2).toNat with _ | q
      · rw [hget] at h; simp at h
      · rw [hget] at h
        dsimp only at h
        rcases hcmp : strcmp q.name name with _ | _ | _ <;> rw [hcmp] at h
        · exact ih _ _ p h
        · cases h
          exact ⟨List.get?_mem hget, strcmp_eq _ _ hcmp⟩
        · exact ih _ _ p h

/-- C8: `NC_findreserved` returns, for each of the 11 reserved names, the
table entry carrying that name's flags, and returns `none` for every name
not in the table (binary search over the statically sorted table finds
exactly the entries present in it). -/
theorem NC_findreserved_exact :
    (∀ p ∈ NC_reserved, NC_findreserved p.name = some p) ∧
    (∀ name : String, (∀ p ∈ NC_reserved, p.name ≠ name) →
      NC_findreserved name = none) := by
  constructor
  · decide
  · intro name hnot
    rcases hres : NC_findreserved name with _ | p
    · rfl
    · have := findreservedLoop_some name _ _ _ p hres
      exact absurd this.2 (hnot p this.1)

/-- Witness for `NC_findreserved_exact`: the `_NCProperties` entry is
found with its flags, and a non-reserved name is reported absent. -/
theorem NC_findreserved_exact_witness :
    NC_findreserved "_NCProperties" = some ⟨"_NCProperties", roNameOnly⟩ ∧
    NC_findreserved "units" = none :=
  ⟨NC_findreserved_exact.1 ⟨"_NCProperties", roNameOnly⟩ (by decide),
   NC_findreserved_exact.2 "units" (by decide)⟩

/-! ### Type resolver (`get_netcdf_type`) -/

/-- The netCDF type identifiers that `get_netcdf_type` can produce
(atomic types, plus a user-defined type found in the per-file cache). -/
inductive NcType where
  | NC_BYTE | NC_CHAR | NC_SHORT | NC_INT | NC_FLOAT | NC_DOUBLE
  | NC_UBYTE | NC_USHORT | NC_UINT | NC_INT64 | NC_UINT64 | NC_STRING
  | user (id : Nat)
deriving DecidableEq, Repr

/-- HDF5 datatype classes relevant to the file layer (`H5T_class_t`). -/
inductive H5Tclass where
  | h5String | h5Integer | h5Float | h5Vlen | h5Compound | h5Enum | h5Opaque
deriving DecidableEq, Repr

/-- Oracle view of a native HDF5 type descriptor: its class, the
variable-length-string probe, the outcome of each `H5Tequal` test the code
performs, and the result of the per-file user-type cache lookup
(`nc4_rec_find_hdf_type`, `some id` when a cached type matches). -/
structure NativeTypeDesc where
  tclass : H5Tclass
  isVariableStr : Bool
  eqSchar : Bool
  eqShort : Bool
  eqInt : Bool
  eqFloat : Bool
  eqDouble : Bool
  eqUchar : Bool
  eqUshort : Bool
  eqUint : Bool
  eqLlong : Bool
  eqUllong : Bool
  cachedUserType : Option Nat
deriving DecidableEq, Repr

/-- Fallthrough of `get_netcdf_type`: consult the per-file cache of
user-defined types; `NC_EBADTYPID` when nothing matches. -/
def cacheLookup (d : NativeTypeDesc) : Except Int NcType :=
  match d.cachedUserType with
  | some id => .ok (.user id)
  | none => .error NC_EBADTYPID

/-- `get_netcdf_type`: classify a native HDF5 type descriptor, testing the
descriptor against the platform-native types in exactly the order of the
C source (`SCHAR`, `SHORT`, `INT`, `FLOAT`, `DOUBLE`, `UCHAR`, `USHORT`,
`UINT`, `LLONG`, `ULLONG`). -/
def get_netcdf_type (d : NativeTypeDesc) : Except Int NcType :=
  match d.tclass with
  | .h5String => .ok (if d.isVariableStr then .NC_STRING else .NC_CHAR)
  | .h5Integer | .h5Float =>
    if d.eqSchar then .ok .NC_BYTE
    else if d.eqShort then .ok .NC_SHORT
    else if d.eqInt then .ok .NC_INT
    else if d.eqFloat then .ok .NC_FLOAT
    else if d.eqDouble then .ok .NC_DOUBLE
    else if d.eqUchar then .ok .NC_UBYTE
    else if d.eqUshort then .ok .NC_USHORT
    else if d.eqUint then .ok .NC_UINT
    else if d.eqLlong then .ok .NC_INT64
    else if d.eqUllong then .ok .NC_UINT64
    else cacheLookup d
  | _ => cacheLookup d

/-- First-match selection over a list of (equality-test, type) pairs. -/
def firstMatch : List (Bool × NcType) → Option NcType
  | [] => none
  | (b, t) :: rest => if b then some t else firstMatch rest

/-- The priority order the C source actually uses: 8/16/32-bit signed,
float, double, 8/16/32-bit unsigned, then 64-bit signed and unsigned. -/
def codeOrder (d : NativeTypeDesc) : List (Bool × NcType) :=
  [(d.eqSchar, .NC_BYTE), (d.eqShort, .NC_SHORT), (d.eqInt, .NC_INT),
   (d.eqFloat, .NC_FLOAT), (d.eqDouble, .NC_DOUBLE),
   (d.eqUchar, .NC_UBYTE), (d.eqUshort, .NC_USHORT), (d.eqUint, .NC_UINT),
   (d.eqLlong, .NC_INT64), (d.eqUllong, .NC_UINT64)]

/-- Modelled from the spec's words for the claimed priority order
"8/16/32/64-bit signed, then float, then double, then the unsigned
variants, then 64-bit signed/unsigned": the 64-bit signed test appears
before the float test. -/
def claimedOrder (d : NativeTypeDesc) : List (Bool × NcType) :=
  [(d.eqSchar, .NC_BYTE), (d.eqShort, .NC_SHORT), (d.eqInt, .NC_INT),
   (d.eqLlong, .NC_INT64),
   (d.eqFloat, .NC_FLOAT), (d.eqDouble, .NC_DOUBLE),
   (d.eqUchar, .NC_UBYTE), (d.eqUshort, .NC_USHORT), (d.eqUint, .NC_UINT),
   (d.eqLlong, .NC_INT64), (d.eqUllong, .NC_UINT64)]

/-- Modelled from the spec: atomic classification following the claimed
priority order verbatim, for comparison with `get_netcdf_type`. -/
def get_netcdf_type_claimed (d : NativeTypeDesc) : Except Int NcType :=
  match d.tclass with
  | .h5String => .ok (if d.isVariableStr then .NC_STRING else .NC_CHAR)
  | .h5Integer | .h5Float =>
    match firstMatch (claimedOrder d) with
    | some t => .ok t
    | none => cacheLookup d
  | _ => cacheLookup d

/-- An integer descriptor whose `H5Tequal` oracle matches both the 64-bit
signed native type and the native float type. -/
def aliasedDesc : NativeTypeDesc :=
  { tclass := .h5Integer, isVariableStr := false,
    eqSchar := false, eqShort := false, eqInt := false,
    eqFloat := true, eqDouble := false,
    eqUchar := false, eqUshort := false, eqUint := false,
    eqLlong := true, eqUllong := false,
    cachedUserType := none }

/-- C5 counterexample: the code does not test the 64-bit signed type
before float.  On a descriptor matching both, the code returns `NC_FLOAT`
while the claimed order would return `NC_INT64`. -/
theorem get_netcdf_type_order_counterexample :
    get_netcdf_type aliasedDesc = .ok .NC_FLOAT ∧
    get_netcdf_type_claimed aliasedDesc = .ok .NC_INT64 ∧
    get_netcdf_type aliasedDesc ≠ get_netcdf_type_claimed aliasedDesc := by
  refine ⟨rfl, rfl, fun h => ?_⟩
  have h' : NcType.NC_FLOAT = NcType.NC_INT64 := Except.ok.inj h
  cases h'

/-- The ten-way equality-test chain equals first-match selection over the
corresponding list. -/
theorem firstMatchChain (fb : Except Int NcType)
    (s sh i f db uc us ui ll ull : Bool) :
    (if s then (.ok .NC_BYTE : Except Int NcType)
     else if sh then .ok .NC_SHORT
     else if i then .ok .NC_INT
     else if f then .ok .NC_FLOAT
     else if db then .ok .NC_DOUBLE
     else if uc then .ok .NC_UBYTE
     else if us then .ok .NC_USHORT
     else if ui then .ok .NC_UINT
     else if ll then .ok .NC_INT64
     else if ull then .ok .NC_UINT64
     else fb) =
    (match firstMatch
        [(s, .NC_BYTE), (sh, .NC_SHORT), (i, .NC_INT), (f, .NC_FLOAT),
         (db, .NC_DOUBLE), (uc, .NC_UBYTE), (us, .NC_USHORT),
         (ui, .NC_UINT), (ll, .NC_INT64), (ull, .NC_UINT64)] with
     | some t => .ok t
     | none => fb) := by
  cases s with
  | true => rfl
  | false =>
  cases sh with
  | true => rfl
  | false =>
  cases i with
  | true => rfl
  | false =>
  cases f with
  | true => rfl
  | false =>
  cases db with
  | true => rfl
  | false =>
  cases uc with
  | true => rfl
  | false =>
  cases us with
  | true => rfl
  | false =>
  cases ui with
  | true => rfl
  | false =>
  cases ll with
  | true => rfl
  | false =>
  cases ull with
  | true => rfl
  | false => rfl

/-- C5 (amended): for integer/float descriptors, classification returns
the type of the first matching equality test in the order 8/16/32-bit
signed, float, double, 8/16/32-bit unsigned, 64-bit signed, 64-bit
unsigned, falling through to the user-type cache when nothing matches. -/
theorem get_netcdf_type_first_match (d : NativeTypeDesc)
    (h : d.tclass = .h5Integer ∨ d.tclass = .h5Float) :
    get_netcdf_type d =
      match firstMatch (codeOrder d) with
      | some t => .ok t
      | none => cacheLookup d := by
  obtain ⟨c, vs, s, sh, i, f, db, uc, us, ui, ll, ull, cache⟩ := d
  simp only at h
  rcases h with h | h <;> subst h <;>
    exact firstMatchChain _ s sh i f db uc us ui ll ull

/-- Witness for `get_netcdf_type_first_match` at a descriptor matching
the native unsigned short test. -/
theorem get_netcdf_type_first_match_witness :
    get_netcdf_type
      { tclass := .h5Integer, isVariableStr := false,
        eqSchar := false, eqShort := false, eqInt := false,
        eqFloat := false, eqDouble := false,
        eqUchar := false, eqUshort := true, eqUint := false,
        eqLlong := false, eqUllong := false, cachedUserType := none } =
      .ok .NC_USHORT := by
  have := get_netcdf_type_first_match
    { tclass := .h5Integer, isVariableStr := false,
      eqSchar := false, eqShort := false, eqInt := false,
      eqFloat := false, eqDouble := false,
      eqUchar := false, eqUshort := true, eqUint := false,
      eqLlong := false, eqUllong := false, cachedUserType := none }
    (Or.inl rfl)
  simpa [codeOrder, firstMatch] using this

/-! ### Attribute reader (`read_hdf5_att`): length-determination policy -/

/-- HDF5 dataspace classes (`H5S_class_t`). -/
inductive H5Sclass where
  | h5Null | h5Scalar | h5Simple
deriving DecidableEq, Repr

/-- Dataspace class as determined by rank and point count: a NULL space
has rank 0 and 0 points, a SCALAR space has rank 0, anything else is a
simple (rank ≥ 1) space.  This is how `H5Sget_simple_extent_type` relates
to `H5Sget_simple_extent_ndims`/`npoints` for attribute spaces. -/
def spaceClassOf (ndims npoints : Nat) : H5Sclass :=
  if ndims = 0 ∧ npoints = 0 then .h5Null
  else if ndims = 0 then .h5Scalar
  else .h5Simple

/-- Oracle view of one HDF5 attribute as `read_hdf5_att` queries it: the
native type descriptor, the byte size of its (string) type
(`H5Tget_size`; for a fixed-length string the native type preserves the
file type's size), the dataspace rank, total point count, and the
declared extent of a rank-1 space. -/
structure H5AttInput where
  ntype : NativeTypeDesc
  tsize : Nat
  ndims : Nat
  npoints : Nat
  extent : Nat
deriving DecidableEq, Repr

/-- The classification and length-determination portion of
`read_hdf5_att` (hdf5file.c lines 266-341), transcribed case for case:
returns the (possibly reclassified) netCDF type and the attribute length,
or the error the C code bails with. -/
def read_hdf5_att_len (a : H5AttInput) : Except Int (NcType × Nat) :=
  if a.ntype.tclass = .h5String ∧ a.ntype.isVariableStr = false ∧ a.tsize = 0 then
    .error NC_EATTMETA
  else
    match get_netcdf_type a.ntype with
    | .error e => .error e
    | .ok xtype =>
      if a.ndims = 0 ∧ a.npoints = 0 then .ok (xtype, 0)
      else if xtype = .NC_STRING then .ok (xtype, a.npoints)
      else if xtype = .NC_CHAR then
        if a.ndims = 0 then
          if a.tsize = 0 then .error NC_EATTMETA else .ok (.NC_CHAR, a.tsize)
        else .ok (.NC_STRING, a.npoints)
      else
        if 1 < a.ndims then .error NC_EATTMETA
        else
          match spaceClassOf a.ndims a.npoints with
          | .h5Null => .error NC_EATTMETA
          | .h5Scalar => .ok (xtype, 1)
          | .h5Simple => .ok (xtype, a.extent)

/-- Anything `firstMatch` selects is one of the listed types. -/
theorem firstMatch_mem :
    ∀ (l : List (Bool × NcType)) (t : NcType),
      firstMatch l = some t → t ∈ l.map Prod.snd := by
  intro l
  induction l with
  | nil => intro t h; simp [firstMatch] at h
  | cons p rest ih =>
    intro t h
    obtain ⟨b, ty⟩ := p
    cases b with
    | true =>
      simp [firstMatch] at h
      subst h; simp
    | false =>
      simp [firstMatch] at h
      simpa using Or.inr (ih t h)

/-- Classification yields `NC_CHAR` only for a fixed-length string
descriptor. -/
theorem get_netcdf_type_char (d : NativeTypeDesc)
    (h : get_netcdf_type d = .ok .NC_CHAR) :
    d.tclass = .h5String ∧ d.isVariableStr = false := by
  have hcache : cacheLookup d ≠ .ok .NC_CHAR := by
    unfold cacheLookup
    rcases hcu : d.cachedUserType with _ | id <;> simp [hcu]
  have hint : ∀ hc : d.tclass = .h5Integer ∨ d.tclass = .h5Float, False := by
    intro hc
    rw [get_netcdf_type_first_match d hc] at h
    rcases hm : firstMatch (codeOrder d) with _ | t <;> rw [hm] at h
    · exact hcache h
    · cases Except.ok.inj h
      have ht := firstMatch_mem _ _ hm
      simp [codeOrder] at ht
  rcases hc : d.tclass with _ | _ | _ | _ | _ | _ | _
  · refine ⟨rfl, ?_⟩
    unfold get_netcdf_type at h
    rw [hc] at h
    dsimp only at h
    rcases hv : d.isVariableStr with _ | _
    · rfl
    · rw [hv] at h; simp at h
  · exact absurd (Or.inl hc) (fun hh => hint hh)
  · exact absurd (Or.inr hc) (fun hh => hint hh)
  all_goals
    (unfold get_netcdf_type at h
     rw [hc] at h
     dsimp only at h
     exact absurd h hcache)

/-- C2: the computed attribute length follows the exact case policy of
`read_hdf5_att`: zero-rank zero-point values give length 0; the
variable-length-string kind gives length = number of points; the
fixed-length-text kind gives the type's byte size for a true scalar and
is reclassified to the variable-length-string kind with length = number
of points for rank > 0; every other kind errors with malformed attribute
metadata for rank > 1, gives length 1 for rank 0 and the declared extent
for rank 1. -/
theorem read_hdf5_att_len_policy (a : H5AttInput) (xtype : NcType)
    (hclass : get_netcdf_type a.ntype = .ok xtype)
    (hfix : ¬(a.ntype.tclass = .h5String ∧ a.ntype.isVariableStr = false ∧
              a.tsize = 0)) :
    ((a.ndims = 0 ∧ a.npoints = 0) → read_hdf5_att_len a = .ok (xtype, 0)) ∧
    (xtype = .NC_STRING →
      read_hdf5_att_len a = .ok (.NC_STRING, a.npoints)) ∧
    (xtype = .NC_CHAR → a.ndims = 0 → a.npoints ≠ 0 →
      read_hdf5_att_len a = .ok (.NC_CHAR, a.tsize)) ∧
    (xtype = .NC_CHAR → 0 < a.ndims →
      read_hdf5_att_len a = .ok (.NC_STRING, a.npoints)) ∧
    (xtype ≠ .NC_STRING → xtype ≠ .NC_CHAR → 1 < a.ndims →
      read_hdf5_att_len a = .error NC_EATTMETA) ∧
    (xtype ≠ .NC_STRING → xtype ≠ .NC_CHAR → a.ndims = 0 → a.npoints ≠ 0 →
      read_hdf5_att_len a = .ok (xtype, 1)) ∧
    (xtype ≠ .NC_STRING → xtype ≠ .NC_CHAR → a.ndims = 1 →
      read_hdf5_att_len a = .ok (xtype, a.extent)) := by
  have hbase : read_hdf5_att_len a =
      if a.ndims = 0 ∧ a.npoints = 0 then .ok (xtype, 0)
      else if xtype = .NC_STRING then .ok (xtype, a.npoints)
      else if xtype = .NC_CHAR then
        if a.ndims = 0 then
          if a.tsize = 0 then .error NC_EATTMETA else .ok (.NC_CHAR, a.tsize)
        else .ok (.NC_STRING, a.npoints)
      else
        if 1 < a.ndims then .error NC_EATTMETA
        else
          match spaceClassOf a.ndims a.npoints with
          | .h5Null => .error NC_EATTMETA
          | .h5Scalar => .ok (xtype, 1)
          | .h5Simple => .ok (xtype, a.extent) := by
    unfold read_hdf5_att_len
    rw [if_neg hfix, hclass]
  refine ⟨?_, ?_, ?_, ?_, ?_, ?_, ?_⟩
  · intro hz
    rw [hbase, if_pos hz]
  · intro hstr
    subst hstr
    by_cases hz : a.ndims = 0 ∧ a.npoints = 0
    · rw [hbase, if_pos hz, hz.2]
    · rw [hbase, if_neg hz, if_pos rfl]
  · intro hchar h0 hnp
    subst hchar
    have htz : a.tsize ≠ 0 := by
      intro h
      exact hfix ⟨(get_netcdf_type_char _ hclass).1,
                  (get_netcdf_type_char _ hclass).2, h⟩
    have hz : ¬(a.ndims = 0 ∧ a.npoints = 0) := fun hh => hnp hh.2
    rw [hbase, if_neg hz]
    simp [h0, htz]
  · intro hchar hpos
    subst hchar
    have h0 : a.ndims ≠ 0 := Nat.pos_iff_ne_zero.mp hpos
    have hz : ¬(a.ndims = 0 ∧ a.npoints = 0) := fun hh => h0 hh.1
    rw [hbase, if_neg hz]
    simp [h0]
  · intro hs hc hrank
    have h0 : a.ndims ≠ 0 := by omega
    have hz : ¬(a.ndims = 0 ∧ a.npoints = 0) := fun hh => h0 hh.1
    rw [hbase, if_neg hz, if_neg hs, if_neg hc, if_pos hrank]
  · intro hs hc h0 hnp
    have hz : ¬(a.ndims = 0 ∧ a.npoints = 0) := fun hh => hnp hh.2
    rw [hbase, if_neg hz, if_neg hs, if_neg hc, if_neg (by omega)]
    simp [spaceClassOf, h0, hnp, hz]
  · intro hs hc h1
    have hz : ¬(a.ndims = 0 ∧ a.npoints = 0) := fun hh => by omega
    rw [hbase, if_neg hz, if_neg hs, if_neg hc, if_neg (by omega)]
    simp [spaceClassOf, h1]

/-- A concrete rank-1 attribute of native double type with declared
extent 4. -/
def attDouble4 : H5AttInput :=
  { ntype := { tclass := .h5Float, isVariableStr := false,
               eqSchar := false, eqShort := false, eqInt := false,
               eqFloat := false, eqDouble := true,
               eqUchar := false, eqUshort := false, eqUint := false,
               eqLlong := false, eqUllong := false,
               cachedUserType := none },
    tsize := 8, ndims := 1, npoints := 4, extent := 4 }

/-- Witness for `read_hdf5_att_len_policy`: a rank-1 double attribute of
declared extent 4 gets length 4, via the rank-1 case of the policy. -/
theorem read_hdf5_att_len_policy_witness :
    read_hdf5_att_len attDouble4 = .ok (.NC_DOUBLE, 4) :=
  (read_hdf5_att_len_policy attDouble4 .NC_DOUBLE rfl
    (by decide)).2.2.2.2.2.2 (by decide) (by decide) rfl

/-! ### Chunk cache tuner (`nc_set_chunk_cache`) -/

/-- The process-wide chunk-cache defaults (`nc4_chunk_cache_size`,
`nc4_chunk_cache_nelems`, `nc4_chunk_cache_preemption`); the C `float`
preemption fraction is modelled as a rational. -/
structure ChunkCacheDefaults where
  size : Nat
  nelems : Nat
  preemption : ℚ
deriving DecidableEq, Repr

/-- `nc_set_chunk_cache`: validate the preemption fraction and update the
three process-wide defaults, as an explicit state transformer. -/
def nc_set_chunk_cache (size nelems : Nat) (preemption : ℚ)
    (s : ChunkCacheDefaults) : Int × ChunkCacheDefaults :=
  if preemption < 0 ∨ preemption > 1 then (NC_EINVAL, s)
  else (NC_NOERR, ⟨size, nelems, preemption⟩)

/-- C4: a preemption fraction outside [0,1] makes the setter fail with
`NC_EINVAL` and leaves all three stored defaults unchanged; a fraction
inside [0,1] makes it store all three values and succeed. -/
theorem nc_set_chunk_cache_policy (size nelems : Nat) (preemption : ℚ)
    (s : ChunkCacheDefaults) :
    ((preemption < 0 ∨ preemption > 1) →
      nc_set_chunk_cache size nelems preemption s = (NC_EINVAL, s)) ∧
    (0 ≤ preemption → preemption ≤ 1 →
      nc_set_chunk_cache size nelems preemption s =
        (NC_NOERR, ⟨size, nelems, preemption⟩)) := by
  constructor
  · intro h
    simp [nc_set_chunk_cache, h]
  · intro h0 h1
    have : ¬(preemption < 0 ∨ preemption > 1) := by
      push_neg
      exact ⟨h0, h1⟩
    simp [nc_set_chunk_cache, this]

/-- Witness for `nc_set_chunk_cache_policy`: setting preemption 3/2 fails
and preserves the stored triple (16, 4, 3/4); setting 1/2 stores it. -/
theorem nc_set_chunk_cache_policy_witness :
    nc_set_chunk_cache 32 8 (3/2) ⟨16, 4, 3/4⟩ = (NC_EINVAL, ⟨16, 4, 3/4⟩) ∧
    nc_set_chunk_cache 32 8 (1/2) ⟨16, 4, 3/4⟩ = (NC_NOERR, ⟨32, 8, 1/2⟩) :=
  ⟨(nc_set_chunk_cache_policy 32 8 (3/2) ⟨16, 4, 3/4⟩).1 (by norm_num),
   (nc_set_chunk_cache_policy 32 8 (1/2) ⟨16, 4, 3/4⟩).2
     (by norm_num) (by norm_num)⟩

/-! ### Attribute collections: reserved-name hiding
(`att_read_var_callbk`, `nc4_read_grp_atts`) -/

/-- `att_read_var_callbk` folded over a variable's native attributes.
Each pair is an attribute name together with the result `read_hdf5_att`
would produce for it (`NC_NOERR`, `NC_EBADTYPID`, or another error).
Reserved names are ignored outright; `NC_EBADTYPID` deletes the freshly
added record and continues; any other error aborts the iteration. -/
def att_read_var_iterate : List (String × Int) → List String → Int × List String
  | [], atts => (NC_NOERR, atts)
  | (name, res) :: rest, atts =>
    match NC_findreserved name with
    | some _ => att_read_var_iterate rest atts
    | none =>
      if res = NC_EBADTYPID then att_read_var_iterate rest atts
      else if res = NC_NOERR then att_read_var_iterate rest (atts ++ [name])
      else (res, atts ++ [name])

/-- Does `NC_findreserved` mark this name as name-only hidden? -/
def reservedNameOnly (name : String) : Bool :=
  match NC_findreserved name with
  | some ra => ra.flags.nameonlyFlag
  | none => false

/-- Group-attribute collection state: the attribute names added so far and
whether the strict-netcdf-3 marker has switched on classic-model mode. -/
structure GrpAttState where
  atts : List String
  classicModel : Bool
deriving DecidableEq, Repr

/-- `nc4_read_grp_atts` folded over a group's native attributes.  A name
equal to `_nc3_strict` only sets the classic-model flag; a name that is
name-only reserved is hidden when (and only when) the group is the root
group; everything else is added, with `NC_EBADTYPID` deleting the record
again and any other error aborting. -/
def nc4_read_grp_atts_iterate (isRoot : Bool) :
    List (String × Int) → GrpAttState → Int × GrpAttState
  | [], st => (NC_NOERR, st)
  | (name, res) :: rest, st =>
    let hidden := isRoot && reservedNameOnly name
    if name = "_nc3_strict" then
      nc4_read_grp_atts_iterate isRoot rest ⟨st.atts, true⟩
    else if hidden = false then
      if res = NC_EBADTYPID then nc4_read_grp_atts_iterate isRoot rest st
      else if res = NC_NOERR then
        nc4_read_grp_atts_iterate isRoot rest ⟨st.atts ++ [name], st.classicModel⟩
      else (res, ⟨st.atts ++ [name], st.classicModel⟩)
    else nc4_read_grp_atts_iterate isRoot rest st

/-- C3 counterexample: reading the root group's attributes with a single
container attribute named `_Format` -- one of the 11 reserved names --
surfaces `_Format` in the group's user-visible attribute collection. -/
theorem grp_atts_reserved_surfaces :
    nc4_read_grp_atts_iterate true [("_Format", NC_NOERR)] ⟨[], false⟩ =
      (NC_NOERR, ⟨["_Format"], false⟩) ∧
    NC_findreserved "_Format" = some ⟨"_Format", roOnly⟩ := by
  constructor
  · decide
  · decide

/-- Invariant form of the variable-attribute hiding property, generalised
over the accumulated list. -/
theorem att_read_var_iterate_inv :
    ∀ (l : List (String × Int)) (init : List String) (res : Int)
      (out : List String),
      (∀ n ∈ init, NC_findreserved n = none) →
      att_read_var_iterate l init = (res, out) → res = NC_NOERR →
      ∀ n ∈ out, NC_findreserved n = none := by
  intro l
  induction l with
  | nil =>
    intro init res out hinit h hres
    simp [att_read_var_iterate] at h
    rw [← h.2]
    exact hinit
  | cons p rest ih =>
    intro init res out hinit h hres
    obtain ⟨name, r⟩ := p
    unfold att_read_var_iterate at h
    rcases hfind : NC_findreserved name with _ | ra <;> rw [hfind] at h
    · dsimp only at h
      by_cases hbad : r = NC_EBADTYPID
      · rw [if_pos hbad] at h
        exact ih init res out hinit h hres
      · rw [if_neg hbad] at h
        by_cases hok : r = NC_NOERR
        · rw [if_pos hok] at h
          refine ih (init ++ [name]) res out ?_ h hres
          intro n hn
          rcases List.mem_append.mp hn with hn | hn
          · exact hinit n hn
          · rw [List.mem_singleton.mp hn]
            exact hfind
        · rw [if_neg hok] at h
          cases h
          exact absurd hres hok
    · exact ih init res out hinit h hres

/-- Invariant form of the group-attribute hiding property, generalised
over the accumulated state. -/
theorem nc4_read_grp_atts_iterate_inv :
    ∀ (isRoot : Bool) (l : List (String × Int)) (st : GrpAttState)
      (res : Int) (out : GrpAttState),
      (∀ n ∈ st.atts, n ≠ "_nc3_strict" ∧
        (isRoot = true → reservedNameOnly n = false)) →
      nc4_read_grp_atts_iterate isRoot l st = (res, out) → res = NC_NOERR →
      ∀ n ∈ out.atts, n ≠ "_nc3_strict" ∧
        (isRoot = true → reservedNameOnly n = false) := by
  intro isRoot l
  induction l with
  | nil =>
    intro st res out hst h hres
    simp [nc4_read_grp_atts_iterate] at h
    rw [← h.2]
    exact hst
  | cons p rest ih =>
    intro st res out hst h hres
    obtain ⟨name, r⟩ := p
    unfold nc4_read_grp_atts_iterate at h
    dsimp only at h
    by_cases hstrict : name = "_nc3_strict"
    · rw [if_pos hstrict] at h
      exact ih ⟨st.atts, true⟩ res out hst h hres
    · rw [if_neg hstrict] at h
      by_cases hhid : (isRoot && reservedNameOnly name) = false
      · rw [if_pos hhid] at h
        by_cases hbad : r = NC_EBADTYPID
        · rw [if_pos hbad] at h
          exact ih st res out hst h hres
        · rw [if_neg hbad] at h
          by_cases hok : r = NC_NOERR
          · rw [if_pos hok] at h
            refine ih ⟨st.atts ++ [name], st.classicModel⟩ res out ?_ h hres
            intro n hn
            rcases List.mem_append.mp hn with hn | hn
            · exact hst n hn
            · rw [List.mem_singleton.mp hn]
              refine ⟨hstrict, fun hr => ?_⟩
              subst hr
              simpa using hhid
          · rw [if_neg hok] at h
            cases h
            exact absurd hres hok
      · rw [if_neg hhid] at h
        exact ih st res out hst h hres

/-- C3 (amended): a variable's attribute collection, successfully read
from the container, never contains any of the 11 reserved names; a
group's collection never contains the strict-compatibility marker
`_nc3_strict` and, for the root group, never contains a name-only-flagged
reserved name -- but other reserved names are not filtered from group
attribute collections. -/
theorem atts_reserved_hiding
    (lv lg : List (String × Int)) (isRoot : Bool)
    (resv resg : Int) (outv : List String) (outg : GrpAttState)
    (hv : att_read_var_iterate lv [] = (resv, outv))
    (hvok : resv = NC_NOERR)
    (hg : nc4_read_grp_atts_iterate isRoot lg ⟨[], false⟩ = (resg, outg))
    (hgok : resg = NC_NOERR) :
    (∀ n ∈ outv, NC_findreserved n = none) ∧
    (∀ n ∈ outg.atts, n ≠ "_nc3_strict" ∧
      (isRoot = true → reservedNameOnly n = false)) := by
  constructor
  · exact att_read_var_iterate_inv lv [] resv outv (by simp) hv hvok
  · exact nc4_read_grp_atts_iterate_inv isRoot lg ⟨[], false⟩ resg outg
      (by simp) hg hgok

/-- Witness for `atts_reserved_hiding`: a variable whose container
attributes are `CLASS` (reserved, hidden) and `units` keeps only `units`;
a root group with attributes `_NCProperties` (name-only, hidden) and
`history` keeps only `history`. -/
theorem atts_reserved_hiding_witness :
    NC_findreserved "units" = none ∧
    ("history" ≠ "_nc3_strict" ∧
      (true = true → reservedNameOnly "history" = false)) :=
  ⟨(atts_reserved_hiding [("CLASS", NC_NOERR), ("units", NC_NOERR)]
      [("_NCProperties", NC_NOERR), ("history", NC_NOERR)] true
      NC_NOERR NC_NOERR ["units"] ⟨["history"], false⟩
      (by decide) rfl (by decide) rfl).1 "units" (by decide),
   (atts_reserved_hiding [("CLASS", NC_NOERR), ("units", NC_NOERR)]
      [("_NCProperties", NC_NOERR), ("history", NC_NOERR)] true
      NC_NOERR NC_NOERR ["units"] ⟨["history"], false⟩
      (by decide) rfl (by decide) rfl).2 "history" (by decide)⟩

/-! ### Metadata tree walker callback (`nc4_rec_read_metadata_cb`) -/

/-- HDF5 object kinds reported by `H5Gget_objinfo` (`statbuf.type`); the
callback treats anything outside group/dataset/named-type as unknown. -/
inductive H5Gtype where
  | h5Group | h5Dataset | h5NamedType | h5Other
deriving DecidableEq, Repr

/-- Oracle view of one link visited by the metadata walk: the engine-call
outcomes and the result of the per-kind processing
(`read_dataset` for datasets, `read_type` for named types). -/
structure CbInput where
  openOk : Bool
  infoOk : Bool
  objKind : H5Gtype
  listAddOk : Bool
  readDatasetRes : Int
  readTypeRes : Int
  closeOk : Bool
deriving DecidableEq, Repr

/-- `nc4_rec_read_metadata_cb`: returns `H5_ITER_CONT` to keep iterating
or `H5_ITER_ERROR` to abort the walk.  A `read_dataset` failure equal to
`NC_EBADTYPID` is converted back to `H5_ITER_CONT` so the dataset is
skipped; every other failure aborts. -/
def nc4_rec_read_metadata_cb (i : CbInput) : Int :=
  if i.openOk = false then H5_ITER_ERROR
  else if i.infoOk = false then H5_ITER_ERROR
  else
    match i.objKind with
    | .h5Group => if i.listAddOk = false then H5_ITER_ERROR else H5_ITER_CONT
    | .h5Dataset =>
      if i.readDatasetRes ≠ NC_NOERR then
        if i.readDatasetRes ≠ NC_EBADTYPID then H5_ITER_ERROR
        else if i.closeOk = false then H5_ITER_ERROR else H5_ITER_CONT
      else if i.closeOk = false then H5_ITER_ERROR else H5_ITER_CONT
    | .h5NamedType =>
      if i.readTypeRes ≠ NC_NOERR then H5_ITER_ERROR
      else if i.closeOk = false then H5_ITER_ERROR else H5_ITER_CONT
    | .h5Other => H5_ITER_ERROR

/-- `H5Literate` over the links of one group: runs the callback on each
link in order, stopping at the first nonzero callback result. -/
def H5Literate_model : List CbInput → Int
  | [] => NC_NOERR
  | i :: rest =>
    let r := nc4_rec_read_metadata_cb i
    if r ≠ H5_ITER_CONT then r else H5Literate_model rest

/-- C6: a `NC_EBADTYPID` (type not representable) failure from
`read_dataset` is swallowed -- the callback reports `H5_ITER_CONT`, and
the walk over the remaining links proceeds exactly as if the dataset were
absent -- whereas any other `read_dataset` failure, and any engine
failure (open, stat, unknown kind, named-type failure), aborts the walk
with `H5_ITER_ERROR`. -/
theorem metadata_walk_skip_policy :
    (∀ i : CbInput, i.openOk = true → i.infoOk = true →
      i.objKind = .h5Dataset → i.readDatasetRes = NC_EBADTYPID →
      i.closeOk = true → nc4_rec_read_metadata_cb i = H5_ITER_CONT) ∧
    (∀ i : CbInput, i.objKind = .h5Dataset →
      i.readDatasetRes ≠ NC_NOERR → i.readDatasetRes ≠ NC_EBADTYPID →
      nc4_rec_read_metadata_cb i = H5_ITER_ERROR) ∧
    (∀ i : CbInput,
      i.openOk = false ∨ (i.infoOk = false) ∨ (i.objKind = .h5Other) ∨
        (i.objKind = .h5NamedType ∧ i.readTypeRes ≠ NC_NOERR) →
      i.openOk = true → i.infoOk = true →
      nc4_rec_read_metadata_cb i = H5_ITER_ERROR) ∧
    (∀ (pre post : List CbInput) (i : CbInput),
      nc4_rec_read_metadata_cb i = H5_ITER_CONT →
      H5Literate_model (pre ++ i :: post) = H5Literate_model (pre ++ post)) := by
  refine ⟨?_, ?_, ?_, ?_⟩
  · intro i h1 h2 h3 h4 h5
    simp [nc4_rec_read_metadata_cb, h1, h2, h3, h4, h5, NC_EBADTYPID, NC_NOERR]
  · intro i h1 h2 h3
    unfold nc4_rec_read_metadata_cb
    by_cases ho : i.openOk = false
    · simp [ho]
    · by_cases hi : i.infoOk = false
      · simp [ho, hi]
      · simp [ho, hi, h1, h2, h3]
  · intro i h ho hi
    rcases h with h | h | h | h
    · rw [ho] at h; cases h
    · rw [hi] at h; cases h
    · simp [nc4_rec_read_metadata_cb, ho, hi, h]
    · simp [nc4_rec_read_metadata_cb, ho, hi, h.1, h.2]
  · intro pre post i hcont
    induction pre with
    | nil => simp [H5Literate_model, hcont]
    | cons j rest ih =>
      unfold H5Literate_model
      by_cases hj : nc4_rec_read_metadata_cb j ≠ H5_ITER_CONT
      · simp [hj]
      · simp only [hj, if_neg, ite_false, ite_true, if_false]
        simpa [hj] using ih

/-- Witness for `metadata_walk_skip_policy`: a dataset whose type fails
classification is skipped with `H5_ITER_CONT`; one failing with a hard
error aborts with `H5_ITER_ERROR`. -/
theorem metadata_walk_skip_policy_witness :
    nc4_rec_read_metadata_cb
      ⟨true, true, .h5Dataset, true, NC_EBADTYPID, NC_NOERR, true⟩ =
        H5_ITER_CONT ∧
    nc4_rec_read_metadata_cb
      ⟨true, true, .h5Dataset, true, NC_EHDFERR, NC_NOERR, true⟩ =
        H5_ITER_ERROR :=
  ⟨metadata_walk_skip_policy.1
      ⟨true, true, .h5Dataset, true, NC_EBADTYPID, NC_NOERR, true⟩
      rfl rfl rfl rfl rfl,
   metadata_walk_skip_policy.2.1
      ⟨true, true, .h5Dataset, true, NC_EHDFERR, NC_NOERR, true⟩
      rfl (by decide) (by decide)⟩

/-! ### File lifecycle: define-mode exit
(`nc4_enddef_netcdf4_file`, `sync_netcdf4_file`, `NC4_enddef`) -/

/-- The mode-relevant flags of `NC_FILE_INFO_T`: `flags & NC_INDEF`,
`redef`, `cmode & NC_CLASSIC_MODEL`, and the read-only marker
(`no_write` / `cmode & NC_NOWRITE`). -/
structure FileState where
  indef : Bool
  redef : Bool
  classicModel : Bool
  noWrite : Bool
deriving DecidableEq, Repr

/-- Engine-call outcomes consumed by `sync_netcdf4_file`: the combined
result of the three `nc4_rec_write_*` passes and the `H5Fflush` call. -/
structure SyncInput where
  writeRes : Int
  flushOk : Bool
deriving DecidableEq, Repr

/-- `sync_netcdf4_file`: in define mode, error under classic-model rules,
otherwise leave define mode (clearing the redef marker); then write
changed metadata (unless read-only) and flush. -/
def sync_netcdf4_file (i : SyncInput) (s : FileState) : Int × FileState :=
  if s.indef = true ∧ s.classicModel = true then (NC_EINDEFINE, s)
  else
    let s1 := if s.indef = true then { s with indef := false, redef := false }
              else s
    if s1.noWrite = false ∧ i.writeRes ≠ NC_NOERR then (i.writeRes, s1)
    else if i.flushOk = false then (NC_EHDFERR, s1)
    else (NC_NOERR, s1)

/-- `nc4_enddef_netcdf4_file`: refuse with `NC_ENOTINDEFINE` when the
file is not in define mode; otherwise clear the define and redef flags
and sync. -/
def nc4_enddef_netcdf4_file (i : SyncInput) (s : FileState) :
    Int × FileState :=
  if s.indef = false then (NC_ENOTINDEFINE, s)
  else sync_netcdf4_file i { s with indef := false, redef := false }

/-- Syncing a file that is already out of define mode leaves it out of
define mode. -/
theorem sync_indef_false (i : SyncInput) (s : FileState)
    (h : s.indef = false) : (sync_netcdf4_file i s).2.indef = false := by
  unfold sync_netcdf4_file
  rw [h]
  simp only [Bool.false_eq_true, false_and, if_false]
  split
  · exact h
  · split <;> exact h

/-- Enddef on a file that is not in define mode: wrong-mode error, state
untouched. -/
theorem enddef_not_indef (i : SyncInput) (s : FileState)
    (h : s.indef = false) :
    nc4_enddef_netcdf4_file i s = (NC_ENOTINDEFINE, s) := by
  simp [nc4_enddef_netcdf4_file, h]

/-- C7: calling enddef when the file is not in define mode fails with the
wrong-mode error `NC_ENOTINDEFINE` and changes no file state; and after
one successful enddef the file has left define mode, so a second
consecutive enddef fails the same way instead of silently succeeding. -/
theorem nc4_enddef_wrong_mode (i i2 : SyncInput) (s : FileState) :
    (s.indef = false →
      nc4_enddef_netcdf4_file i s = (NC_ENOTINDEFINE, s)) ∧
    (s.indef = true → (nc4_enddef_netcdf4_file i s).1 = NC_NOERR →
      (nc4_enddef_netcdf4_file i s).2.indef = false ∧
      nc4_enddef_netcdf4_file i2 (nc4_enddef_netcdf4_file i s).2 =
        (NC_ENOTINDEFINE, (nc4_enddef_netcdf4_file i s).2)) := by
  constructor
  · exact fun h => enddef_not_indef i s h
  · intro h _
    have hind : (nc4_enddef_netcdf4_file i s).2.indef = false := by
      unfold nc4_enddef_netcdf4_file
      rw [h]
      simp only [Bool.true_eq_false, if_false]
      exact sync_indef_false i _ rfl
    exact ⟨hind, enddef_not_indef i2 _ hind⟩

/-- Witness for `nc4_enddef_wrong_mode`: a concrete writable file in
define mode; the first enddef (clean sync) succeeds and the second
returns `NC_ENOTINDEFINE`. -/
theorem nc4_enddef_wrong_mode_witness :
    nc4_enddef_netcdf4_file ⟨NC_NOERR, true⟩
        (nc4_enddef_netcdf4_file ⟨NC_NOERR, true⟩
          ⟨true, true, false, false⟩).2 =
      (NC_ENOTINDEFINE,
        (nc4_enddef_netcdf4_file ⟨NC_NOERR, true⟩
          ⟨true, true, false, false⟩).2) :=
  ((nc4_enddef_wrong_mode ⟨NC_NOERR, true⟩ ⟨NC_NOERR, true⟩
      ⟨true, true, false, false⟩).2 rfl (by decide)).2

/-! ### `NC4_enddef`: marking variables as written -/

/-- In-memory variable record: only the `written_to` flag matters here. -/
structure VarInfo where
  written_to : Bool
deriving DecidableEq, Repr

/-- The marking loop of `NC4_enddef` (hdf5file.c lines 2903-2908),
transcribed verbatim: the entries of the group's variable index are
visited in order, an entry with `var != NULL` is skipped by `continue`,
and `var->written_to = NC_TRUE` executes only for a `NULL` entry -- a
null-pointer dereference, modelled as `none` (no defined result). -/
def NC4_enddef_mark : List (Option VarInfo) → Option (List (Option VarInfo))
  | [] => some []
  | some v :: rest => (NC4_enddef_mark rest).map (fun l => some v :: l)
  | none :: _ => none

/-- The corresponding loop in `nc4_rec_read_metadata` (lines 2474-2478),
with the null check the right way around: skip `NULL` entries and set
`written_to` on every real variable.  This is the behaviour the spec
describes. -/
def markAllWritten (vars : List (Option VarInfo)) : List (Option VarInfo) :=
  vars.map (fun v =>
    match v with
    | none => none
    | some _ => some ⟨true⟩)

/-- `NC4_enddef`: run the marking loop over the group's variables, then
take the file out of define mode. -/
def NC4_enddef (i : SyncInput) (vars : List (Option VarInfo))
    (s : FileState) : Option (Int × List (Option VarInfo) × FileState) :=
  match NC4_enddef_mark vars with
  | none => none
  | some vars2 =>
    let r := nc4_enddef_netcdf4_file i s
    some (r.1, vars2, r.2)

/-- C1: the claim fails on the code.  For a writable file in define mode
whose group holds one variable with `written_to = false`, `NC4_enddef`
succeeds (returns `NC_NOERR` and leaves define mode) yet the variable's
written flag is still `false`: the loop's inverted null check
(`if(var != NULL) continue;`) skips every actual variable.  The intended
loop -- written correctly in `nc4_rec_read_metadata` -- marks the same
variable written. -/
theorem NC4_enddef_written_to_bug :
    NC4_enddef ⟨NC_NOERR, true⟩ [some ⟨false⟩] ⟨true, true, false, false⟩ =
      some (NC_NOERR, [some ⟨false⟩], ⟨false, false, false, false⟩) ∧
    markAllWritten [some ⟨false⟩] = [some ⟨true⟩] := by
  constructor
  · rfl
  · rfl

/-! ### Dimension-scale reading (`read_scale`) -/

/-- In-memory dimension record (`NC_DIM_INFO_T`), with the fields
`read_scale` touches. -/
structure DimInfo where
  name : String
  len : Nat
  id : Int
  unlimited : Bool
  too_long : Bool
  holdsDataset : Bool
deriving DecidableEq, Repr

/-- Group dimension state: the group's dimension records in creation
order and the file's next-dimension-id counter (`next_dimid`). -/
structure GrpState where
  dims : List DimInfo
  next_dimid : Int
deriving DecidableEq, Repr

/-- Modelled from the spec: `nc4_dim_list_add` (nc4internal.c, not under
src/) appends a new dimension record; with a non-negative pre-assigned id
it uses that id and leaves the file's next-id counter alone, otherwise it
takes the counter's value as the id and increments the counter (ids are
allocated increasingly and never reused). -/
def nc4_dim_list_add (s : GrpState) (name : String) (len : Nat)
    (assignedid : Int) : DimInfo × GrpState :=
  let id := if 0 ≤ assignedid then assignedid else s.next_dimid
  let next := if 0 ≤ assignedid then s.next_dimid else s.next_dimid + 1
  let d : DimInfo := ⟨name, len, id, false, false, false⟩
  (d, ⟨s.dims ++ [d], next⟩)

/-- Modelled from the spec: `nc4_dim_list_del` (nc4internal.c, not under
src/) unlinks one specific dimension record, identified in C by pointer
identity.  `read_scale` only ever deletes the record it has just
appended, so the model removes the final list entry. -/
def nc4_dim_list_del_created (s : GrpState) : GrpState :=
  ⟨s.dims.dropLast, s.next_dimid⟩

/-- Oracle view of one dimension-scale dataset as `read_scale` queries
it: existence and readability of the hidden `_Netcdf4Dimid` attribute and
the id it stores, the scale's current size, whether its maximum size is
the unlimited sentinel, the platform's `SIZEOF_SIZE_T`, whether the
dimension-scale name marks a dimension without a coordinate variable,
the `nc4_find_dim_len` outcome, and the final `H5Aclose`. -/
structure ReadScaleInput where
  attrExists : Bool
  aopenOk : Bool
  areadOk : Bool
  assigned_id : Int
  scale_size : Nat
  maxSizeUnlimited : Bool
  sizeofSizeT : Nat
  hasDimWithoutVarName : Bool
  findDimLenRes : Except Int Nat
  closeAttOk : Bool
deriving Repr

/-- Result of `read_scale`: the returned error code, the group/file state
after the call, and the `*dim` output (`none` when the call failed or the
created record was rolled back). -/
structure ReadScaleResult where
  retval : Int
  state : GrpState
  dim : Option DimInfo
deriving DecidableEq, Repr

/-- C narrowing of an `int` value to `short` (two's-complement wrap into
[-32768, 32767]). -/
def toShort (n : Int) : Int := (n + 32768) % 65536 - 32768

/-- Narrowing to `short` is the identity on values already in the
16-bit signed range. -/
theorem toShort_eq_self (n : Int) (h1 : -32768 ≤ n) (h2 : n ≤ 32767) :
    toShort n = n := by
  unfold toShort
  omega

/-- The `exit` block of `read_scale`: close the hidden attribute if it
was opened (a close failure overwrites `retval` with `NC_EHDFERR`), and
if `retval` is an error while a dimension record was created, undo the
creation -- delete the record and restore the next-dimension-id counter
from `initial_next_dimid`.  That temporary is declared `short`
(hdf5file.c:1184) while the counter field is an `int`, so the restored
value is the entry value narrowed to `short`.  The successful deletion
overwrites `retval` with `NC_NOERR`. -/
def read_scale_exit (i : ReadScaleInput) (s0 s : GrpState) (retval : Int)
    (attOpened created : Bool) (dim : Option DimInfo) : ReadScaleResult :=
  let r1 := if attOpened = true ∧ i.closeAttOk = false then NC_EHDFERR
            else retval
  if r1 < 0 ∧ created = true then
    ⟨NC_NOERR, ⟨(nc4_dim_list_del_created s).dims, toShort s0.next_dimid⟩,
      none⟩
  else ⟨r1, s, dim⟩

/-- `read_scale` (hdf5file.c lines 1174-1276): read the hidden dimid
attribute and advance the file's next-id counter past it, clamp
over-large lengths on 32-bit platforms, create the dimension record, set
its unlimited flag, and handle the dimension-without-variable marker
(re-deriving the length of an unlimited dimension via `nc4_find_dim_len`
and holding the dataset open).  In-place mutations of the record after it
is appended are modelled by storing the finished record. -/
def read_scale (i : ReadScaleInput) (obj_name : String) (s0 : GrpState) :
    ReadScaleResult :=
  if i.attrExists = true ∧ i.aopenOk = false then
    read_scale_exit i s0 s0 NC_EHDFERR false false none
  else if i.attrExists = true ∧ i.areadOk = false then
    read_scale_exit i s0 s0 NC_EHDFERR true false none
  else
    let s1 : GrpState :=
      if i.attrExists = true ∧ s0.next_dimid ≤ i.assigned_id then
        ⟨s0.dims, i.assigned_id + 1⟩
      else s0
    let assigned : Int := if i.attrExists = true then i.assigned_id else -1
    let tooLong : Bool :=
      decide (i.sizeofSizeT < 8) && decide (NC_MAX_UINT < i.scale_size)
    let len : Nat := if tooLong = true then NC_MAX_UINT else i.scale_size
    let added := nc4_dim_list_add s1 obj_name len assigned
    let d1 : DimInfo :=
      { added.1 with too_long := tooLong, unlimited := i.maxSizeUnlimited }
    if i.hasDimWithoutVarName = true then
      if i.maxSizeUnlimited = true then
        match i.findDimLenRes with
        | .error e =>
          read_scale_exit i s0 ⟨s1.dims ++ [d1], added.2.next_dimid⟩ e
            i.attrExists true none
        | .ok l =>
          let d2 : DimInfo := { d1 with len := l, holdsDataset := true }
          read_scale_exit i s0 ⟨s1.dims ++ [d2], added.2.next_dimid⟩ NC_NOERR
            i.attrExists true (some d2)
      else
        let d2 : DimInfo := { d1 with holdsDataset := true }
        read_scale_exit i s0 ⟨s1.dims ++ [d2], added.2.next_dimid⟩ NC_NOERR
          i.attrExists true (some d2)
    else
      read_scale_exit i s0 ⟨s1.dims ++ [d1], added.2.next_dimid⟩ NC_NOERR
        i.attrExists true (some d1)

/-- After the hidden-id advancement and the dimension creation, the
next-dimension-id counter strictly exceeds the pre-assigned id. -/
theorem dim_add_next_lt (s0 : GrpState) (aid : Int) (name : String)
    (len : Nat) :
    aid <
      (nc4_dim_list_add
        (if s0.next_dimid ≤ aid then ⟨s0.dims, aid + 1⟩ else s0)
        name len aid).2.next_dimid := by
  by_cases h : s0.next_dimid ≤ aid <;> by_cases h2 : 0 ≤ aid <;>
    simp [nc4_dim_list_add, h, h2] <;> omega

/-- C9: for a scale dataset carrying the hidden `_Netcdf4Dimid`
attribute, once `read_scale` completes with a dimension record delivered
(no failure, no rollback), the file's next-dimension-id counter is
strictly greater than the id stored in the attribute. -/
theorem read_scale_advances_next_dimid (i : ReadScaleInput) (name : String)
    (s : GrpState) (hattr : i.attrExists = true)
    (hdim : ((read_scale i name s).dim).isSome = true) :
    i.assigned_id < (read_scale i name s).state.next_dimid := by
  obtain ⟨attrE, aopen, aread, aid, ssize, maxunl, szt, hdwv, fdl, catok⟩ := i
  simp only at hattr
  subst hattr
  cases aopen with
  | false =>
    simp [read_scale, read_scale_exit] at hdim
  | true =>
  cases aread with
  | false =>
    simp [read_scale, read_scale_exit] at hdim
  | true =>
  cases catok with
  | false =>
    cases hdwv <;> cases maxunl <;> rcases fdl with e | l <;>
      simp [read_scale, read_scale_exit, NC_EHDFERR] at hdim
  | true =>
    cases hdwv with
    | false =>
      simp [read_scale, read_scale_exit, NC_NOERR]
      exact dim_add_next_lt s aid name _
    | true =>
      cases maxunl with
      | false =>
        simp [read_scale, read_scale_exit, NC_NOERR]
        exact dim_add_next_lt s aid name _
      | true =>
        rcases fdl with e | l
        · simp [read_scale, read_scale_exit] at hdim
          split at hdim <;> simp at hdim
        · simp [read_scale, read_scale_exit, NC_NOERR]
          exact dim_add_next_lt s aid name _

/-- Witness for `read_scale_advances_next_dimid`: a plain scale carrying
stored id 5 read into an empty group with counter 0 leaves the counter
at 6 > 5. -/
theorem read_scale_advances_next_dimid_witness :
    (5 : Int) <
      (read_scale
        ⟨true, true, true, 5, 10, false, 8, false, .ok 0, true⟩
        "x" ⟨[], 0⟩).state.next_dimid :=
  read_scale_advances_next_dimid
    ⟨true, true, true, 5, 10, false, 8, false, .ok 0, true⟩
    "x" ⟨[], 0⟩ rfl (by decide)

/-- Restoring the (narrowed) initial counter after the hidden-id
advancement depends only on the pre-call dimension list and counter. -/
theorem rollback_state_eq (s : GrpState) (aid : Int) :
    (⟨(if s.next_dimid ≤ aid then (⟨s.dims, aid + 1⟩ : GrpState)
       else s).dims, toShort s.next_dimid⟩ : GrpState) =
      ⟨s.dims, toShort s.next_dimid⟩ := by
  split <;> rfl

/-- C10 counterexample: with the pre-call counter at 40000 (reachable,
since hdf5file.c:1204 stores `assigned_id + 1` from a file-controlled
`_Netcdf4Dimid` into the `int` counter), a scale read failing after the
dimension was created "restores" the counter through the `short`
temporary `initial_next_dimid` (hdf5file.c:1184/1272): the counter comes
back as -25536, not the pre-call 40000, so the claimed exact restoration
fails. -/
theorem read_scale_truncated_restore :
    (read_scale
        ⟨true, true, true, 3, 10, true, 8, true, .error NC_EHDFERR, true⟩
        "x" ⟨[], 40000⟩).state.next_dimid = -25536 ∧
    (read_scale
        ⟨true, true, true, 3, 10, true, 8, true, .error NC_EHDFERR, true⟩
        "x" ⟨[], 40000⟩).dim = none ∧
    ((-25536 : Int) ≠ 40000) := by
  refine ⟨?_, ?_, ?_⟩ <;> decide

/-- C10 (amended): when `read_scale` fails after the dimension record was
created -- `nc4_find_dim_len` failing for an unlimited
dimension-without-variable scale, or the hidden attribute's `H5Aclose`
failing -- the creation is rolled back: the newly created dimension is
removed so the group's dimension list is exactly as before the call, no
dimension is delivered, and the next-dimension-id counter is restored to
the pre-call value narrowed to `short` (it is saved through the `short`
temporary `initial_next_dimid`); whenever the pre-call counter lies in
the 16-bit signed range the whole state is restored exactly. -/
theorem read_scale_rollback (i : ReadScaleInput) (name : String)
    (s : GrpState)
    (hopen : i.attrExists = true → i.aopenOk = true)
    (hread : i.attrExists = true → i.areadOk = true)
    (hfail : (i.hasDimWithoutVarName = true ∧ i.maxSizeUnlimited = true ∧
               ∃ e, i.findDimLenRes = .error e ∧ e < 0) ∨
             (i.attrExists = true ∧ i.closeAttOk = false)) :
    (read_scale i name s).state = ⟨s.dims, toShort s.next_dimid⟩ ∧
    (read_scale i name s).dim = none ∧
    (-32768 ≤ s.next_dimid → s.next_dimid ≤ 32767 →
      (read_scale i name s).state = s) := by
  have hcore : (read_scale i name s).state =
      ⟨s.dims, toShort s.next_dimid⟩ ∧ (read_scale i name s).dim = none := by
    obtain ⟨attrE, aopen, aread, aid, ssize, maxunl, szt, hdwv, fdl, catok⟩
      := i
    simp only at hopen hread hfail
    cases attrE with
    | false =>
      rcases hfail with ⟨h1, h2, e, he, helt⟩ | ⟨h, _⟩
      · subst h1; subst h2; subst he
        simp [read_scale, read_scale_exit, nc4_dim_list_del_created, helt,
          le_of_lt helt]
      · cases h
    | true =>
      rw [hopen rfl, hread rfl]
      rcases hfail with ⟨h1, h2, e, he, helt⟩ | ⟨_, hcat⟩
      · subst h1; subst h2; subst he
        cases catok <;>
          simp [read_scale, read_scale_exit, nc4_dim_list_del_created, helt,
            le_of_lt helt, NC_EHDFERR, rollback_state_eq]
      · subst hcat
        cases hdwv <;> cases maxunl <;> rcases fdl with e | l <;>
          simp [read_scale, read_scale_exit, nc4_dim_list_del_created,
            NC_EHDFERR, rollback_state_eq]
  refine ⟨hcore.1, hcore.2, fun h1 h2 => ?_⟩
  rw [hcore.1, toShort_eq_self s.next_dimid h1 h2]

/-- Witness for `read_scale_rollback`: an unlimited
dimension-without-variable scale whose `nc4_find_dim_len` fails, read
against an in-`short`-range counter, leaves the group's single-dimension
state untouched and delivers no dimension. -/
theorem read_scale_rollback_witness :
    (read_scale
        ⟨true, true, true, 3, 10, true, 8, true, .error NC_EHDFERR, true⟩
        "x" ⟨[⟨"t", 4, 0, false, false, false⟩], 1⟩).state =
      ⟨[⟨"t", 4, 0, false, false, false⟩], 1⟩ ∧
    (read_scale
        ⟨true, true, true, 3, 10, true, 8, true, .error NC_EHDFERR, true⟩
        "x" ⟨[⟨"t", 4, 0, false, false, false⟩], 1⟩).dim = none :=
  ⟨(read_scale_rollback
      ⟨true, true, true, 3, 10, true, 8, true, .error NC_EHDFERR, true⟩
      "x" ⟨[⟨"t", 4, 0, false, false, false⟩], 1⟩
      (fun _ => rfl) (fun _ => rfl)
      (Or.inl ⟨rfl, rfl, NC_EHDFERR, rfl, by decide⟩)).2.2
        (by decide) (by decide),
   (read_scale_rollback
      ⟨true, true, true, 3, 10, true, 8, true, .error NC_EHDFERR, true⟩
      "x" ⟨[⟨"t", 4, 0, false, false, false⟩], 1⟩
      (fun _ => rfl) (fun _ => rfl)
      (Or.inl ⟨rfl, rfl, NC_EHDFERR, rfl, by decide⟩)).2.1⟩
